import Mathlib

/-!
# GitSignal — verification of the time-series aggregation and pagination engine

Shallow embedding of `src/lib/github.ts` (the only source file containing the
core logic).  Timestamps are Unix seconds modelled as `Nat` (the source holds
millisecond `Date` objects and floors to seconds before any bucket arithmetic;
all bucket math in the source is on nonnegative integer seconds).  JavaScript
`Map<number, number>` accumulators that are only ever read back with
`get(k) || 0` are embedded as their count functions; the insertion-ordered
`Set` followed by a numeric sort is embedded as sorted insertion without
duplicates, which produces the same list (the ascending list of distinct
keys).  HTTP responses are modelled by their status and parsed JSON body,
where `some items` stands for a JSON array and `none` for any non-array JSON
value; `response.ok` is the WHATWG fetch definition, status in [200, 300).
-/

namespace GitSignal

/-- `secondsPerWeek = 7 * 24 * 60 * 60` from `github.ts` (lines 299, 388, 477). -/
def secondsPerWeek : Nat := 7 * 24 * 60 * 60

theorem secondsPerWeek_eq : secondsPerWeek = 604800 := by norm_num [secondsPerWeek]

/-- The week bucketer: `timestamp - (timestamp % secondsPerWeek)`, inlined in
the source at lines 304, 306, 311, 393, 395, 400, 482, 484, 489. -/
def weekStartOf (t : Nat) : Nat := t - t % secondsPerWeek

/-- `weekToStars.get(weekStart) || 0` (and the analogous issue map): the number
of dates whose week bucket is `ws`.  The source builds the map by iterating
`set(ws, (get(ws) || 0) + 1)` over the dates, so the stored count for a key is
exactly the number of dates bucketing to it, and absent keys read as 0. -/
def weekCount (dates : List Nat) (ws : Nat) : Nat :=
  dates.countP (fun t => weekStartOf t == ws)

/-- The series-emitting `while (weekStart <= currentWeekStart)` loop
(lines 319–325, 408–414, 497–503), with explicit fuel: each iteration emits
the current week start and advances it by `secondsPerWeek`. -/
def buildWeeksAux : Nat → Nat → Nat → List Nat
  | 0, _, _ => []
  | fuel + 1, ws, last =>
    if ws ≤ last then ws :: buildWeeksAux fuel (ws + secondsPerWeek) last
    else []

/-- The loop runs `(last - first) / secondsPerWeek + 1` times when
`first ≤ last`, so that fuel is sufficient (and exact). -/
def buildWeeks (first last : Nat) : List Nat :=
  buildWeeksAux ((last - first) / secondsPerWeek + 1) first last

/-- `StarWeek` from `github.ts` lines 68–71. -/
structure StarWeek where
  week : Nat
  stars : Nat
deriving DecidableEq, Repr

/-- `IssueWeek` from `github.ts` lines 73–76. -/
structure IssueWeek where
  week : Nat
  issues : Nat
deriving DecidableEq, Repr

/-- `ContributorWeek` from `github.ts` lines 63–66. -/
structure ContributorWeek where
  week : Nat
  contributors : Nat
deriving DecidableEq, Repr

/-- The aggregation half of `fetchStarHistory` (lines 292–327): on an empty
date list return `[]`; otherwise anchor `firstWeekStart` at the bucket of the
earliest star (the source sorts ascending and reads index 0, embedded here as
the fold of `Nat.min`), set `currentWeekStart` to the bucket of `now`, and
emit one point per bucket in range with the per-week star count. -/
def starSeriesOfDates (dates : List Nat) (now : Nat) : List StarWeek :=
  match dates with
  | [] => []
  | d :: ds =>
    let firstStarTime := ds.foldl Nat.min d
    let firstWeekStart := weekStartOf firstStarTime
    let currentWeekStart := weekStartOf now
    (buildWeeks firstWeekStart currentWeekStart).map
      (fun ws => { week := ws, stars := weekCount dates ws })

/-- The aggregation half of `fetchIssuesOverTime` (lines 387–416):
`firstWeekStart` is the bucket of the 52-weeks-ago horizon (`startWeek`),
`currentWeekStart` the bucket of `now`; the full grid is emitted even when
`dates` is empty. -/
def issuesSeriesOfDates (dates : List Nat) (now horizon : Nat) : List IssueWeek :=
  let firstWeekStart := weekStartOf horizon
  let currentWeekStart := weekStartOf now
  (buildWeeks firstWeekStart currentWeekStart).map
    (fun ws => { week := ws, issues := weekCount dates ws })

/-- The aggregation half of `fetchIssuesClosedOverTime` (lines 476–505),
duplicated in the source with the same body as the opened-issues one. -/
def issuesClosedSeriesOfDates (dates : List Nat) (now horizon : Nat) : List IssueWeek :=
  let firstWeekStart := weekStartOf horizon
  let currentWeekStart := weekStartOf now
  (buildWeeks firstWeekStart currentWeekStart).map
    (fun ws => { week := ws, issues := weekCount dates ws })

/-- One entry of a contributor's `weeks` array (`{ w: number; c: number }`,
line 221): `w` the week timestamp, `c` the commit count for that week. -/
structure ContribWeekEntry where
  w : Nat
  c : Nat
deriving DecidableEq, Repr

/-- One element of the `/stats/contributors` response body (line 221). -/
structure ContributorRecord where
  author : String
  weeks : List ContribWeekEntry
deriving DecidableEq, Repr

/-- The `allWeeks` set before sorting: every `week.w` pushed by the nested
`forEach` loops at lines 221–228, in traversal order, with duplicates. -/
def allWeekKeys (data : List ContributorRecord) : List Nat :=
  data.flatMap (fun cb => cb.weeks.map (fun e => e.w))

/-- Sorted duplicate-free insertion, embedding
`Array.from(allWeeks).sort((a, b) => a - b)` (line 231): the result is the
ascending list of distinct keys, which this insertion sort produces. -/
def insertWeekKey (x : Nat) : List Nat → List Nat
  | [] => [x]
  | y :: ys =>
    if x < y then x :: y :: ys
    else if x = y then y :: ys
    else y :: insertWeekKey x ys

/-- `sortedWeeks` at line 231: the distinct week keys in ascending order. -/
def sortedWeekKeys (data : List ContributorRecord) : List Nat :=
  (allWeekKeys data).foldr insertWeekKey []

/-- `weekToContributors.get(week) || 0` (lines 224–226, 235): the map is
incremented once per `weeks` entry with `c > 0`, over all contributor records,
so the stored value is the number of such entries for that key. -/
def activeEntryCount (data : List ContributorRecord) (wk : Nat) : Nat :=
  (data.flatMap (fun cb => cb.weeks)).countP (fun e => decide (e.w = wk ∧ 0 < e.c))

/-- The aggregation half of `fetchContributorsOverTime` (lines 216–236). -/
def contributorsSeries (data : List ContributorRecord) : List ContributorWeek :=
  (sortedWeekKeys data).map (fun wk => { week := wk, contributors := activeEntryCount data wk })

/-- The errors thrown by `github.ts`: generic `Error` values with distinct
messages for 404 / 403 / other statuses, and the dedicated
`StatsComputingError` class (lines 38–43).  `otherError` carries the status
that produced the generic failure. -/
inductive GhError where
  | notFound
  | rateLimited
  | statsComputing
  | otherError (status : Nat)
deriving DecidableEq, Repr

/-- An HTTP response as the code observes it: the status, and the parsed JSON
body — `some items` when `Array.isArray(data)` holds, `none` for any
non-array JSON value. -/
structure HttpResponse (α : Type) where
  status : Nat
  body : Option (List α)

/-- `response.ok` per the WHATWG fetch standard: status in the range
[200, 300). -/
def respOk (s : Nat) : Bool := decide (200 ≤ s ∧ s < 300)

/-- The `!response.ok` error mapping of the paginated star/issue fetch loops
(lines 265–273, 355–363, 444–452): 404 → not found, 403 → rate limited,
anything else → generic failure. -/
def starIssueMapErr (status : Nat) : GhError :=
  if status = 404 then .notFound
  else if status = 403 then .rateLimited
  else .otherError status

/-- One pagination loop (`while (hasMore && page <= maxPages)`, lines 254–290
and 349–385 and 438–474), with fuel = number of pages the ceiling still
allows.  Per page: a non-ok status throws the mapped error; a non-array or
empty-array body ends the loop without accumulating; otherwise the page's
items are accumulated through `extract` (the source pushes inside the
`forEach`; extraction commutes with concatenation), the page counter
advances, and a short page (fewer than 100 raw items) ends the loop. -/
def paginateAux {α β : Type} (pages : Nat → HttpResponse α) (extract : α → Option β)
    (mapErr : Nat → GhError) : Nat → Nat → Except GhError (List β)
  | 0, _ => .ok []
  | fuel + 1, page =>
    let r := pages page
    if respOk r.status then
      match r.body with
      | none => .ok []
      | some items =>
        if items.length = 0 then .ok []
        else if items.length < 100 then .ok (items.filterMap extract)
        else
          match paginateAux pages extract mapErr fuel (page + 1) with
          | .ok rest => .ok (items.filterMap extract ++ rest)
          | .error e => .error e
    else .error (mapErr r.status)

/-- Pagination starting at page 1 with a page ceiling `maxPages`: the loop
condition `page <= maxPages` means exactly `maxPages` requests are allowed. -/
def paginate {α β : Type} (pages : Nat → HttpResponse α) (extract : α → Option β)
    (mapErr : Nat → GhError) (maxPages : Nat) : Except GhError (List β) :=
  paginateAux pages extract mapErr maxPages 1

/-- A stargazer item (`{ starred_at: string }`, line 280): `none` models a
missing or falsy `starred_at`, which the loop skips. -/
structure StarItem where
  starred_at : Option Nat

/-- `fetchStarHistory` (lines 244–328): paginate the stargazer endpoint with
the given page ceiling (the source default is 10), keep the `starred_at`
timestamps, then aggregate.  A pagination error propagates as rejection. -/
def fetchStarHistory (pages : Nat → HttpResponse StarItem) (now maxPages : Nat) :
    Except GhError (List StarWeek) :=
  match paginate pages (fun it => it.starred_at) starIssueMapErr maxPages with
  | .error e => .error e
  | .ok dates => .ok (starSeriesOfDates dates now)

/-- An issue-shaped item from the issues endpoint (lines 370, 459):
`pull_request` is true when the record carries the (truthy) pull-request
discriminator field; `created_at` / `closed_at` are `none` when the field is
missing or null. -/
structure IssueItem where
  pull_request : Bool
  created_at : Option Nat
  closed_at : Option Nat

/-- The per-item filter of `fetchIssuesOverTime` (lines 370–378): skip pull
requests, require a creation timestamp, keep only items created at or after
the 52-week horizon. -/
def issuesOpenedExtract (horizon : Nat) (it : IssueItem) : Option Nat :=
  if it.pull_request then none
  else
    match it.created_at with
    | none => none
    | some t => if horizon ≤ t then some t else none

/-- The per-item filter of `fetchIssuesClosedOverTime` (lines 459–467): skip
pull requests, require a close timestamp at or after the horizon. -/
def issuesClosedExtract (horizon : Nat) (it : IssueItem) : Option Nat :=
  if it.pull_request then none
  else
    match it.closed_at with
    | none => none
    | some t => if horizon ≤ t then some t else none

/-- `fetchIssuesOverTime` (lines 334–417): paginate, filter, aggregate over
the horizon-anchored grid.  `horizon` is the `fiftyTwoWeeksAgo` instant in
seconds (`now - 52 * secondsPerWeek`), threaded explicitly. -/
def fetchIssuesOverTime (pages : Nat → HttpResponse IssueItem) (now horizon maxPages : Nat) :
    Except GhError (List IssueWeek) :=
  match paginate pages (issuesOpenedExtract horizon) starIssueMapErr maxPages with
  | .error e => .error e
  | .ok dates => .ok (issuesSeriesOfDates dates now horizon)

/-- `fetchIssuesClosedOverTime` (lines 423–506). -/
def fetchIssuesClosedOverTime (pages : Nat → HttpResponse IssueItem) (now horizon maxPages : Nat) :
    Except GhError (List IssueWeek) :=
  match paginate pages (issuesClosedExtract horizon) starIssueMapErr maxPages with
  | .error e => .error e
  | .ok dates => .ok (issuesClosedSeriesOfDates dates now horizon)

/-- `CommitActivity` from `github.ts` lines 57–61. -/
structure CommitActivity where
  week : Nat
  total : Nat
  days : List Nat
deriving DecidableEq, Repr

/-- `fetchCommitActivity` (lines 147–182) applied to the observed response:
when `response.ok` fails, map 404 → not found, 403 → rate limited,
202 → stats computing (this branch can only be reached if 202 were not ok),
otherwise a generic failure; when it succeeds, a non-array or empty-array
body raises the stats-computing error, and otherwise the items are returned
(the source's `data.map` copies the three fields unchanged). -/
def fetchCommitActivity (r : HttpResponse CommitActivity) : Except GhError (List CommitActivity) :=
  if respOk r.status then
    match r.body with
    | none => .error .statsComputing
    | some data =>
      if data.length = 0 then .error .statsComputing
      else .ok (data.map (fun wk => { week := wk.week, total := wk.total, days := wk.days }))
  else if r.status = 404 then .error .notFound
  else if r.status = 403 then .error .rateLimited
  else if r.status = 202 then .error .statsComputing
  else .error (.otherError r.status)

/-- `fetchContributorsOverTime` (lines 188–237) applied to the observed
response: same error mapping as commit activity (including the 202 branch
under `!response.ok`), the same non-array / empty-array rejection, and the
contributor-week reduction on success. -/
def fetchContributorsOverTime (r : HttpResponse ContributorRecord) :
    Except GhError (List ContributorWeek) :=
  if respOk r.status then
    match r.body with
    | none => .error .statsComputing
    | some data =>
      if data.length = 0 then .error .statsComputing
      else .ok (contributorsSeries data)
  else if r.status = 404 then .error .notFound
  else if r.status = 403 then .error .rateLimited
  else if r.status = 202 then .error .statsComputing
  else .error (.otherError r.status)

/-! ## Helper lemmas about the grid builder -/

theorem buildWeeksAux_head {f ws last : Nat} {x : Nat} {t : List Nat}
    (h : buildWeeksAux f ws last = x :: t) : x = ws := by
  cases f with
  | zero => simp [buildWeeksAux] at h
  | succ f =>
    by_cases hle : ws ≤ last
    · simp [buildWeeksAux, hle] at h
      exact h.1.symm
    · simp [buildWeeksAux, hle] at h

theorem buildWeeksAux_chain (f : Nat) : ∀ (ws last : Nat),
    List.Chain' (fun a b => b = a + secondsPerWeek) (buildWeeksAux f ws last) := by
  induction f with
  | zero => intro ws last; simp [buildWeeksAux]
  | succ f ih =>
    intro ws last
    by_cases hle : ws ≤ last
    · simp only [buildWeeksAux, hle, if_true]
      rw [List.chain'_cons']
      refine ⟨?_, ih (ws + secondsPerWeek) last⟩
      intro b hb
      cases htail : buildWeeksAux f (ws + secondsPerWeek) last with
      | nil => rw [htail] at hb; simp at hb
      | cons x t =>
        rw [htail] at hb
        simp at hb
        rw [← hb]
        exact buildWeeksAux_head htail
    · simp [buildWeeksAux, hle]

theorem buildWeeksAux_mem (f : Nat) : ∀ (ws last x : Nat),
    x ∈ buildWeeksAux f ws last → ∃ k, x = ws + k * secondsPerWeek ∧ x ≤ last := by
  induction f with
  | zero => intro ws last x h; simp [buildWeeksAux] at h
  | succ f ih =>
    intro ws last x h
    by_cases hle : ws ≤ last
    · simp only [buildWeeksAux, hle, if_true, List.mem_cons] at h
      rcases h with h | h
      · exact ⟨0, by omega, by omega⟩
      · rcases ih (ws + secondsPerWeek) last x h with ⟨k, hk, hxle⟩
        exact ⟨k + 1, by rw [hk]; ring, hxle⟩
    · simp [buildWeeksAux, hle] at h

theorem buildWeeksAux_mem_of (f : Nat) : ∀ (k ws last : Nat), k < f →
    ws + k * secondsPerWeek ≤ last → ws + k * secondsPerWeek ∈ buildWeeksAux f ws last := by
  induction f with
  | zero => intro k ws last hk; omega
  | succ f ih =>
    intro k ws last hk hle
    have hwsle : ws ≤ last := by
      have : ws ≤ ws + k * secondsPerWeek := Nat.le_add_right _ _
      omega
    simp only [buildWeeksAux, hwsle, if_true, List.mem_cons]
    cases k with
    | zero => left; omega
    | succ j =>
      right
      have : ws + (j + 1) * secondsPerWeek = (ws + secondsPerWeek) + j * secondsPerWeek := by ring
      rw [this] at hle ⊢
      exact ih j (ws + secondsPerWeek) last (by omega) hle

theorem buildWeeksAux_length (f : Nat) : ∀ (ws last : Nat),
    (buildWeeksAux f ws last).length =
      min f (if ws ≤ last then (last - ws) / secondsPerWeek + 1 else 0) := by
  induction f with
  | zero => intro ws last; simp [buildWeeksAux]
  | succ f ih =>
    intro ws last
    by_cases hle : ws ≤ last
    · simp only [buildWeeksAux, hle, if_true, List.length_cons, ih]
      by_cases hle2 : ws + secondsPerWeek ≤ last
      · have h1 : (last - ws) / secondsPerWeek = (last - (ws + secondsPerWeek)) / secondsPerWeek + 1 := by
          rw [secondsPerWeek_eq] at hle2 ⊢
          omega
        simp only [hle2, if_true, h1]
        omega
      · have h0 : (last - ws) / secondsPerWeek = 0 := by
          apply Nat.div_eq_of_lt
          rw [secondsPerWeek_eq] at hle2 ⊢
          omega
        simp only [hle2, if_false, h0]
        omega
    · simp [buildWeeksAux, hle]

theorem buildWeeks_mem_of {first last x : Nat} (h1 : first ≤ x) (h2 : x ≤ last)
    (h3 : x % secondsPerWeek = first % secondsPerWeek) : x ∈ buildWeeks first last := by
  have hW := secondsPerWeek_eq
  have hdvd : secondsPerWeek ∣ (x - first) := by
    rw [hW] at h3 ⊢
    omega
  rcases hdvd with ⟨k, hk⟩
  have hx : x = first + k * secondsPerWeek := by
    rw [hW] at hk ⊢
    omega
  have hkle : k ≤ (last - first) / secondsPerWeek := by
    have h4 : k = (x - first) / secondsPerWeek := by
      rw [hk, Nat.mul_div_cancel_left _ (by rw [hW]; omega : 0 < secondsPerWeek)]
    rw [h4]
    exact Nat.div_le_div_right (by omega)
  rw [hx]
  exact buildWeeksAux_mem_of _ k first last (by omega) (by omega)

theorem buildWeeks_length {first last : Nat} (h : first ≤ last) :
    (buildWeeks first last).length = (last - first) / secondsPerWeek + 1 := by
  rw [buildWeeks, buildWeeksAux_length]
  simp [h]

theorem weekStartOf_mod (t : Nat) : weekStartOf t % secondsPerWeek = 0 := by
  rw [weekStartOf, secondsPerWeek_eq] at *
  omega

/-- The claim's density property on a list of week timestamps: each entry is
the previous one plus 604800 — equivalently `weeks[i+1] - weeks[i] = 604800`
with strictly increasing entries and no duplicates. -/
def DenseWeeks (weeks : List Nat) : Prop :=
  ∀ i (h : i + 1 < weeks.length),
    weeks.get ⟨i + 1, h⟩ = weeks.get ⟨i, Nat.lt_of_succ_lt h⟩ + 604800

theorem denseWeeks_of_chain {l : List Nat}
    (h : List.Chain' (fun a b => b = a + secondsPerWeek) l) : DenseWeeks l := by
  intro i hi
  have := List.chain'_iff_get.mp h i (by omega)
  rw [secondsPerWeek_eq] at this
  exact this

/-! ## Helper lemmas about the contributor-week reduction -/

theorem insertWeekKey_mem (x y : Nat) : ∀ (l : List Nat),
    y ∈ insertWeekKey x l ↔ y = x ∨ y ∈ l := by
  intro l
  induction l with
  | nil => simp [insertWeekKey]
  | cons z zs ih =>
    by_cases h1 : x < z
    · simp [insertWeekKey, h1]
    · by_cases h2 : x = z
      · subst h2
        simp only [insertWeekKey, h1, if_false, if_true, List.mem_cons]
        constructor
        · intro h; tauto
        · intro h; tauto
      · simp only [insertWeekKey, h1, h2, if_false, List.mem_cons, ih]
        tauto

theorem insertWeekKey_sorted (x : Nat) : ∀ (l : List Nat),
    l.Pairwise (· < ·) → (insertWeekKey x l).Pairwise (· < ·) := by
  intro l
  induction l with
  | nil => intro _; simp [insertWeekKey]
  | cons z zs ih =>
    intro hp
    rw [List.pairwise_cons] at hp
    by_cases h1 : x < z
    · simp only [insertWeekKey, h1, if_true]
      rw [List.pairwise_cons]
      refine ⟨?_, by rw [List.pairwise_cons]; exact hp⟩
      intro b hb
      rcases List.mem_cons.mp hb with rfl | hb2
      · exact h1
      · exact Nat.lt_trans h1 (hp.1 b hb2)
    · by_cases h2 : x = z
      · subst h2
        simp only [insertWeekKey]
        rw [if_neg (lt_irrefl x), if_pos trivial, List.pairwise_cons]
        exact hp
      · simp only [insertWeekKey, h1, h2, if_false]
        rw [List.pairwise_cons]
        refine ⟨?_, ih hp.2⟩
        intro b hb
        rcases (insertWeekKey_mem x b zs).mp hb with rfl | hb2
        · omega
        · exact hp.1 b hb2

theorem insertWeekKey_ne_nil (x : Nat) (l : List Nat) : insertWeekKey x l ≠ [] := by
  cases l with
  | nil => simp [insertWeekKey]
  | cons z zs =>
    by_cases h1 : x < z
    · simp [insertWeekKey, h1]
    · by_cases h2 : x = z
      · simp [insertWeekKey, h1, h2]
      · simp [insertWeekKey, h1, h2]

theorem foldr_insertWeekKey_mem (x : Nat) : ∀ (l : List Nat),
    x ∈ l.foldr insertWeekKey [] ↔ x ∈ l := by
  intro l
  induction l with
  | nil => simp
  | cons z zs ih => simp [List.foldr_cons, insertWeekKey_mem, ih]

theorem foldr_insertWeekKey_sorted : ∀ (l : List Nat),
    (l.foldr insertWeekKey []).Pairwise (· < ·) := by
  intro l
  induction l with
  | nil => simp
  | cons z zs ih => exact insertWeekKey_sorted z _ ih

theorem foldr_insertWeekKey_eq_nil : ∀ (l : List Nat),
    l.foldr insertWeekKey [] = [] ↔ l = [] := by
  intro l
  cases l with
  | nil => simp
  | cons z zs =>
    simp only [List.foldr_cons]
    constructor
    · intro h; exact absurd h (insertWeekKey_ne_nil z _)
    · intro h; simp at h

theorem sortedWeekKeys_mem (data : List ContributorRecord) (x : Nat) :
    x ∈ sortedWeekKeys data ↔ x ∈ allWeekKeys data := by
  rw [sortedWeekKeys, foldr_insertWeekKey_mem]

theorem sortedWeekKeys_sorted (data : List ContributorRecord) :
    (sortedWeekKeys data).Pairwise (· < ·) :=
  foldr_insertWeekKey_sorted _

/-! ## Helper lemmas about pagination -/

theorem paginateAux_error_at {α β : Type} (pages : Nat → HttpResponse α)
    (extract : α → Option β) (mapErr : Nat → GhError) (k : Nat) :
    ∀ (fuel page : Nat), page ≤ k → k < page + fuel →
      (∀ j, page ≤ j → j < k →
        respOk (pages j).status = true ∧ ∃ l, (pages j).body = some l ∧ l.length = 100) →
      respOk (pages k).status = false →
      paginateAux pages extract mapErr fuel page = .error (mapErr (pages k).status) := by
  intro fuel
  induction fuel with
  | zero => intro page h1 h2; omega
  | succ fuel ih =>
    intro page h1 h2 hfull hbad
    by_cases hpk : page = k
    · subst hpk
      simp only [paginateAux, hbad]
      simp
    · have hlt : page < k := by omega
      rcases hfull page (Nat.le_refl _) hlt with ⟨hok, l, hbody, hlen⟩
      simp only [paginateAux, hok, if_true, hbody, hlen]
      have hrec := ih (page + 1) (by omega) (by omega)
        (fun j hj1 hj2 => hfull j (by omega) hj2) hbad
      simp only [hrec]
      simp

/-- Weeks of a series built by mapping a point constructor over a week grid. -/
theorem map_week_buildWeeks (a b : Nat) (v : Nat → Nat) :
    (((buildWeeks a b).map (fun ws => ({ week := ws, stars := v ws } : StarWeek))).map
      (fun p => p.week)) = buildWeeks a b := by
  rw [List.map_map]
  have h : ((fun p => p.week) ∘ fun ws => ({ week := ws, stars := v ws } : StarWeek))
      = fun ws => ws := rfl
  rw [h, List.map_id']

theorem map_week_buildWeeks_issues (a b : Nat) (v : Nat → Nat) :
    (((buildWeeks a b).map (fun ws => ({ week := ws, issues := v ws } : IssueWeek))).map
      (fun p => p.week)) = buildWeeks a b := by
  rw [List.map_map]
  have h : ((fun p => p.week) ∘ fun ws => ({ week := ws, issues := v ws } : IssueWeek))
      = fun ws => ws := rfl
  rw [h, List.map_id']

/-- Unfolding `starSeriesOfDates` on a nonempty date list. -/
theorem starSeriesOfDates_cons (d : Nat) (ds : List Nat) (now : Nat) :
    starSeriesOfDates (d :: ds) now =
      (buildWeeks (weekStartOf (ds.foldl Nat.min d)) (weekStartOf now)).map
        (fun ws => { week := ws, stars := weekCount (d :: ds) ws }) := rfl

theorem issuesSeriesOfDates_def (dates : List Nat) (now horizon : Nat) :
    issuesSeriesOfDates dates now horizon =
      (buildWeeks (weekStartOf horizon) (weekStartOf now)).map
        (fun ws => { week := ws, issues := weekCount dates ws }) := rfl

theorem issuesClosedSeriesOfDates_def (dates : List Nat) (now horizon : Nat) :
    issuesClosedSeriesOfDates dates now horizon =
      (buildWeeks (weekStartOf horizon) (weekStartOf now)).map
        (fun ws => { week := ws, issues := weekCount dates ws }) := rfl

theorem contributorsSeries_map_week (data : List ContributorRecord) :
    (contributorsSeries data).map (fun p => p.week) = sortedWeekKeys data := by
  unfold contributorsSeries
  rw [List.map_map]
  have h : ((fun p => p.week) ∘ fun wk =>
      ({ week := wk, contributors := activeEntryCount data wk } : ContributorWeek))
      = fun wk => wk := rfl
  rw [h, List.map_id']

/-! ## Claim C1 — density of emitted series -/

/-- Claim C1, counterexample: the contributor-week series is NOT always
dense.  A single contributor active in week 0 and week 1209600 (and in no
week between) yields a two-point series whose consecutive weeks differ by
1209600, not 604800: the reduction emits only the union of mentioned week
keys and fills no gaps. -/
theorem claim1_counterexample :
    ((contributorsSeries [⟨"a", [⟨0, 1⟩, ⟨1209600, 1⟩]⟩]).map (fun p => p.week)
      = [0, 1209600]) ∧
    ¬ DenseWeeks ((contributorsSeries [⟨"a", [⟨0, 1⟩, ⟨1209600, 1⟩]⟩]).map (fun p => p.week)) := by
  constructor
  · rfl
  · intro h
    have h0 := h 0 (by decide)
    simp [List.get] at h0

/-- Claim C1, amended: the star, issues-opened and issues-closed series are
dense — consecutive points always satisfy
`series[i+1].week = series[i].week + 604800` (hence no gaps, no duplicate
weeks, strictly chronological order) — for all inputs; the contributor-week
series has strictly increasing weeks (no duplicates, chronological) for all
inputs, but its steps equal 604800 only when the union of the input week keys
is itself a gap-free 604800-grid, as the counterexample shows. -/
theorem claim1_density_amended :
    (∀ dates now, DenseWeeks ((starSeriesOfDates dates now).map (fun p => p.week))) ∧
    (∀ dates now horizon,
      DenseWeeks ((issuesSeriesOfDates dates now horizon).map (fun p => p.week))) ∧
    (∀ dates now horizon,
      DenseWeeks ((issuesClosedSeriesOfDates dates now horizon).map (fun p => p.week))) ∧
    (∀ data, ((contributorsSeries data).map (fun p => p.week)).Pairwise (· < ·)) := by
  refine ⟨?_, ?_, ?_, ?_⟩
  · intro dates now
    cases dates with
    | nil => intro i h; simp [starSeriesOfDates] at h
    | cons d ds =>
      apply denseWeeks_of_chain
      rw [starSeriesOfDates_cons, map_week_buildWeeks]
      exact buildWeeksAux_chain _ _ _
  · intro dates now horizon
    apply denseWeeks_of_chain
    rw [issuesSeriesOfDates_def, map_week_buildWeeks_issues]
    exact buildWeeksAux_chain _ _ _
  · intro dates now horizon
    apply denseWeeks_of_chain
    rw [issuesClosedSeriesOfDates_def, map_week_buildWeeks_issues]
    exact buildWeeksAux_chain _ _ _
  · intro data
    rw [contributorsSeries_map_week]
    exact sortedWeekKeys_sorted data

/-- Claim C1 witness: the density property instantiated on the concrete
three-week star series. -/
theorem claim1_density_amended_witness :
    DenseWeeks ((starSeriesOfDates [0, 1209600] 1209600).map (fun p => p.week)) :=
  claim1_density_amended.1 [0, 1209600] 1209600

/-! ## Claim C2 — zero-fill correctness -/

/-- Claim C2, confirmed: any bucket-aligned week inside
`[firstWeek, currentWeek]` to which no observed event buckets is emitted with
value exactly 0, for the star series (anchored at the earliest star's bucket)
and the issues-opened series (anchored at the horizon's bucket); and the
concrete scenario — stars only in week 0 and week 2·604800 — yields the
three-point series with the middle week at 0. -/
theorem claim2_zero_fill :
    (∀ (d : Nat) (ds : List Nat) (now wk : Nat),
      weekStartOf (ds.foldl Nat.min d) ≤ wk → wk ≤ weekStartOf now →
      wk % 604800 = 0 → weekCount (d :: ds) wk = 0 →
      ({ week := wk, stars := 0 } : StarWeek) ∈ starSeriesOfDates (d :: ds) now) ∧
    (∀ (dates : List Nat) (now horizon wk : Nat),
      weekStartOf horizon ≤ wk → wk ≤ weekStartOf now →
      wk % 604800 = 0 → weekCount dates wk = 0 →
      ({ week := wk, issues := 0 } : IssueWeek) ∈ issuesSeriesOfDates dates now horizon) ∧
    starSeriesOfDates [0, 1209600] 1209600 =
      [{ week := 0, stars := 1 }, { week := 604800, stars := 0 },
       { week := 1209600, stars := 1 }] := by
  refine ⟨?_, ?_, by decide⟩
  · intro d ds now wk h1 h2 h3 h4
    rw [starSeriesOfDates_cons]
    apply List.mem_map.mpr
    refine ⟨wk, ?_, by rw [h4]⟩
    apply buildWeeks_mem_of h1 h2
    rw [weekStartOf_mod, secondsPerWeek_eq]
    exact h3
  · intro dates now horizon wk h1 h2 h3 h4
    rw [issuesSeriesOfDates_def]
    apply List.mem_map.mpr
    refine ⟨wk, ?_, by rw [h4]⟩
    apply buildWeeks_mem_of h1 h2
    rw [weekStartOf_mod, secondsPerWeek_eq]
    exact h3

/-- Claim C2 witness: the middle, unobserved week 604800 of the scenario is
emitted with value 0. -/
theorem claim2_zero_fill_witness :
    ({ week := 604800, stars := 0 } : StarWeek) ∈ starSeriesOfDates [0, 1209600] 1209600 :=
  claim2_zero_fill.1 0 [1209600] 1209600 604800 (by decide) (by decide) (by decide) (by decide)

/-! ## Claim C3 — the contributor-week reduction -/

/-- Follows the spec's words (refinement reference, not a source
transcription): "the count of distinct contributors whose commitCount for
that week is greater than zero" — the number of distinct contributor
identities having at least one entry for the week with a positive commit
count. -/
def distinctActiveContributors (data : List ContributorRecord) (wk : Nat) : Nat :=
  ((data.filter (fun cb => cb.weeks.any (fun e => decide (e.w = wk ∧ 0 < e.c)))).map
    (fun cb => cb.author)).dedup.length

/-- Claim C3, counterexample: the reduction counts week ENTRIES with positive
commit count, not distinct contributors.  A single contributor whose record
lists week 0 twice (commit counts 3 and 5) produces the point value 2, while
the count of distinct contributors active in week 0 is 1. -/
theorem claim3_counterexample :
    contributorsSeries [⟨"a", [⟨0, 3⟩, ⟨0, 5⟩]⟩] = [{ week := 0, contributors := 2 }] ∧
    distinctActiveContributors [⟨"a", [⟨0, 3⟩, ⟨0, 5⟩]⟩] 0 = 1 ∧
    (2 : Nat) ≠ 1 := by
  refine ⟨by decide, ?_, by decide⟩
  rfl

/-- Claim C3, amended: the reduction returns exactly one point per week in
the union of all contributors' week keys, in strictly increasing week order —
weeks mentioned only with commitCount 0 are included (with value 0 when no
entry for them is positive) — and each point's value equals the number of
week ENTRIES across all contributor records with that week and a positive
commit count.  This equals the count of distinct active contributors only
when no record repeats a week key (and no two records share an identity), as
GitHub's data does; the counterexample shows they differ in general.  The
spec's concrete scenario holds. -/
theorem claim3_contributors_amended :
    (∀ (data : List ContributorRecord) (wk : Nat),
      wk ∈ (contributorsSeries data).map (fun p => p.week) ↔ wk ∈ allWeekKeys data) ∧
    (∀ (data : List ContributorRecord), ((contributorsSeries data).map (fun p => p.week)).Nodup) ∧
    (∀ (data : List ContributorRecord) (p : ContributorWeek),
      p ∈ contributorsSeries data → p.contributors = activeEntryCount data p.week) ∧
    contributorsSeries [⟨"a", [⟨604800000, 3⟩]⟩, ⟨"b", [⟨604800000, 0⟩]⟩] =
      [{ week := 604800000, contributors := 1 }] := by
  refine ⟨?_, ?_, ?_, by decide⟩
  · intro data wk
    rw [contributorsSeries_map_week]
    exact sortedWeekKeys_mem data wk
  · intro data
    rw [contributorsSeries_map_week]
    exact (sortedWeekKeys_sorted data).imp Nat.ne_of_lt
  · intro data p hp
    rcases List.mem_map.mp hp with ⟨wk, _, hwk⟩
    rw [← hwk]

/-- Claim C3 witness: the amended value law instantiated on the duplicate-week
input. -/
theorem claim3_contributors_amended_witness :
    ({ week := 0, contributors := 2 } : ContributorWeek).contributors
      = activeEntryCount [⟨"a", [⟨0, 3⟩, ⟨0, 5⟩]⟩] ({ week := 0, contributors := 2 } : ContributorWeek).week :=
  claim3_contributors_amended.2.2.1 [⟨"a", [⟨0, 3⟩, ⟨0, 5⟩]⟩] { week := 0, contributors := 2 }
    (by decide)

/-! ## Claim C4 — empty-input law -/

/-- The contributor series is empty exactly when no contributor record
mentions any week (in particular, when there are no records at all). -/
theorem contributorsSeries_eq_nil_iff (data : List ContributorRecord) :
    contributorsSeries data = [] ↔ ∀ cb ∈ data, cb.weeks = [] := by
  unfold contributorsSeries
  rw [List.map_eq_nil_iff, sortedWeekKeys, foldr_insertWeekKey_eq_nil, allWeekKeys,
    List.flatMap_eq_nil_iff]
  constructor
  · intro h cb hcb
    have := h cb hcb
    rwa [List.map_eq_nil_iff] at this
  · intro h cb hcb
    rw [h cb hcb]
    rfl

/-- Claim C4, confirmed: star aggregation of zero events returns the empty
series; the contributor reduction over records carrying zero week entries
(including zero records) returns the empty series; and each horizon-anchored
issue aggregation with zero observed events still emits the full series over
the 52-week horizon — 53 bucket-aligned points (both endpoint buckets
included), every one with value 0. -/
theorem claim4_empty_input :
    (∀ now, starSeriesOfDates [] now = []) ∧
    (∀ data : List ContributorRecord,
      (∀ cb ∈ data, cb.weeks = []) → contributorsSeries data = []) ∧
    (∀ now, 52 * 604800 ≤ now →
      (issuesSeriesOfDates [] now (now - 52 * 604800)).length = 53 ∧
      ∀ p ∈ issuesSeriesOfDates [] now (now - 52 * 604800), p.issues = 0) ∧
    (∀ now, 52 * 604800 ≤ now →
      (issuesClosedSeriesOfDates [] now (now - 52 * 604800)).length = 53 ∧
      ∀ p ∈ issuesClosedSeriesOfDates [] now (now - 52 * 604800), p.issues = 0) := by
  have hW := secondsPerWeek_eq
  have hlen : ∀ now, 52 * 604800 ≤ now →
      (buildWeeks (weekStartOf (now - 52 * 604800)) (weekStartOf now)).length = 53 := by
    intro now hnow
    have hle : weekStartOf (now - 52 * 604800) ≤ weekStartOf now := by
      unfold weekStartOf
      rw [hW]
      omega
    rw [buildWeeks_length hle]
    unfold weekStartOf
    rw [hW]
    omega
  refine ⟨fun _ => rfl, ?_, ?_, ?_⟩
  · intro data h
    exact (contributorsSeries_eq_nil_iff data).mpr h
  · intro now hnow
    rw [issuesSeriesOfDates_def, List.length_map]
    refine ⟨hlen now hnow, ?_⟩
    intro p hp
    rcases List.mem_map.mp hp with ⟨ws, _, hws⟩
    rw [← hws]
    rfl
  · intro now hnow
    rw [issuesClosedSeriesOfDates_def, List.length_map]
    refine ⟨hlen now hnow, ?_⟩
    intro p hp
    rcases List.mem_map.mp hp with ⟨ws, _, hws⟩
    rw [← hws]
    rfl

/-- Claim C4 witness: the law instantiated on concrete inputs — a contributor
record with no weeks, and the issue horizon series at `now = 52 · 604800`. -/
theorem claim4_empty_input_witness :
    contributorsSeries [⟨"a", []⟩] = [] ∧
    (issuesSeriesOfDates [] (52 * 604800) (52 * 604800 - 52 * 604800)).length = 53 :=
  ⟨claim4_empty_input.2.1 [⟨"a", []⟩] (by decide),
   (claim4_empty_input.2.2.1 (52 * 604800) (by norm_num)).1⟩

/-! ## Claim C5 — pull-request exclusion -/

/-- Claim C5, confirmed: an issue-shaped record carrying the pull-request
discriminator is dropped by both per-item filters, and consequently inserting
such a record anywhere in the fetched item list leaves both the issues-opened
and the issues-closed series unchanged — it contributes to neither count, for
all inputs. -/
theorem claim5_pull_request_exclusion :
    ∀ (it : IssueItem), it.pull_request = true →
      (∀ horizon, issuesOpenedExtract horizon it = none ∧
        issuesClosedExtract horizon it = none) ∧
      (∀ (pre post : List IssueItem) (now horizon : Nat),
        issuesSeriesOfDates ((pre ++ it :: post).filterMap (issuesOpenedExtract horizon))
            now horizon =
          issuesSeriesOfDates ((pre ++ post).filterMap (issuesOpenedExtract horizon))
            now horizon ∧
        issuesClosedSeriesOfDates ((pre ++ it :: post).filterMap (issuesClosedExtract horizon))
            now horizon =
          issuesClosedSeriesOfDates ((pre ++ post).filterMap (issuesClosedExtract horizon))
            now horizon) := by
  intro it hpr
  have hopen : ∀ horizon, issuesOpenedExtract horizon it = none := by
    intro horizon
    unfold issuesOpenedExtract
    rw [hpr]
    simp
  have hclosed : ∀ horizon, issuesClosedExtract horizon it = none := by
    intro horizon
    unfold issuesClosedExtract
    rw [hpr]
    simp
  refine ⟨fun horizon => ⟨hopen horizon, hclosed horizon⟩, ?_⟩
  intro pre post now horizon
  constructor
  · have : (pre ++ it :: post).filterMap (issuesOpenedExtract horizon)
        = (pre ++ post).filterMap (issuesOpenedExtract horizon) := by
      simp [List.filterMap_append, List.filterMap_cons, hopen horizon]
    rw [this]
  · have : (pre ++ it :: post).filterMap (issuesClosedExtract horizon)
        = (pre ++ post).filterMap (issuesClosedExtract horizon) := by
      simp [List.filterMap_append, List.filterMap_cons, hclosed horizon]
    rw [this]

/-- Claim C5 witness: a concrete pull-request record (created and closed
inside the horizon) is excluded from both filters and leaves a concrete
one-item series computation unchanged. -/
theorem claim5_pull_request_exclusion_witness :
    issuesOpenedExtract 0 (⟨true, some 100, some 200⟩ : IssueItem) = none ∧
    issuesSeriesOfDates
        (([(⟨false, some 0, none⟩ : IssueItem)] ++ (⟨true, some 100, some 200⟩ : IssueItem) ::
          ([] : List IssueItem)).filterMap (issuesOpenedExtract 0)) 0 0 =
      issuesSeriesOfDates
        (([(⟨false, some 0, none⟩ : IssueItem)] ++ ([] : List IssueItem)).filterMap
          (issuesOpenedExtract 0)) 0 0 :=
  ⟨((claim5_pull_request_exclusion (⟨true, some 100, some 200⟩ : IssueItem) rfl).1 0).1,
   ((claim5_pull_request_exclusion (⟨true, some 100, some 200⟩ : IssueItem) rfl).2
     [(⟨false, some 0, none⟩ : IssueItem)] [] 0 0).1⟩

/-! ## Claim C7 — bucket alignment -/

/-- Claim C7, confirmed: the week bucketer satisfies
`bucketOf(t) % 604800 = 0 = anchor % 604800` for every timestamp `t` (the
code's only anchor is the Unix epoch, whose phase is 0), and therefore every
emitted week of the star and issue series — including the derived first and
last bounds, which are themselves `weekStartOf` values covered by the first
conjunct — is divisible by 604800. -/
theorem claim7_bucket_alignment :
    (∀ t, weekStartOf t % 604800 = 0) ∧
    (∀ dates now p, p ∈ starSeriesOfDates dates now → p.week % 604800 = 0) ∧
    (∀ dates now horizon p, p ∈ issuesSeriesOfDates dates now horizon →
      p.week % 604800 = 0) ∧
    (∀ dates now horizon p, p ∈ issuesClosedSeriesOfDates dates now horizon →
      p.week % 604800 = 0) := by
  have hbase : ∀ t, weekStartOf t % 604800 = 0 := by
    intro t
    have := weekStartOf_mod t
    rwa [secondsPerWeek_eq] at this
  have hgrid : ∀ a b ws, ws ∈ buildWeeks (weekStartOf a) (weekStartOf b) →
      ws % 604800 = 0 := by
    intro a b ws hws
    rcases buildWeeksAux_mem _ _ _ _ hws with ⟨k, hk, _⟩
    have h1 := hbase a
    rw [hk, secondsPerWeek_eq]
    omega
  refine ⟨hbase, ?_, ?_, ?_⟩
  · intro dates now p hp
    cases dates with
    | nil => simp [starSeriesOfDates] at hp
    | cons d ds =>
      rw [starSeriesOfDates_cons] at hp
      rcases List.mem_map.mp hp with ⟨ws, hmem, hws⟩
      rw [← hws]
      exact hgrid _ _ _ hmem
  · intro dates now horizon p hp
    rw [issuesSeriesOfDates_def] at hp
    rcases List.mem_map.mp hp with ⟨ws, hmem, hws⟩
    rw [← hws]
    exact hgrid _ _ _ hmem
  · intro dates now horizon p hp
    rw [issuesClosedSeriesOfDates_def] at hp
    rcases List.mem_map.mp hp with ⟨ws, hmem, hws⟩
    rw [← hws]
    exact hgrid _ _ _ hmem

/-- Claim C7 witness: alignment evaluated at a concrete timestamp and on a
concrete series point. -/
theorem claim7_bucket_alignment_witness :
    weekStartOf 1000000 % 604800 = 0 ∧
    ({ week := 604800, stars := 0 } : StarWeek).week % 604800 = 0 :=
  ⟨claim7_bucket_alignment.1 1000000,
   claim7_bucket_alignment.2.1 [0, 1209600] 1209600 { week := 604800, stars := 0 }
     (by decide)⟩

/-! ## Claim C6 — pagination termination -/

/-- One pagination step on a full page: accumulate and continue. -/
theorem paginateAux_step_full {α β : Type} (pages : Nat → HttpResponse α)
    (extract : α → Option β) (mapErr : Nat → GhError) (fuel page : Nat) (l : List α)
    (hresp : pages page = ⟨200, some l⟩) (hlen : l.length = 100) :
    paginateAux pages extract mapErr (fuel + 1) page =
      match paginateAux pages extract mapErr fuel (page + 1) with
      | .ok rest => .ok (l.filterMap extract ++ rest)
      | .error e => .error e := by
  simp only [paginateAux, hresp, hlen]
  norm_num [respOk]

/-- One pagination step on a short (but non-empty) page: accumulate, stop. -/
theorem paginateAux_step_short {α β : Type} (pages : Nat → HttpResponse α)
    (extract : α → Option β) (mapErr : Nat → GhError) (fuel page : Nat) (l : List α)
    (hresp : pages page = ⟨200, some l⟩) (hne : l.length ≠ 0) (hlen : l.length < 100) :
    paginateAux pages extract mapErr (fuel + 1) page = .ok (l.filterMap extract) := by
  simp only [paginateAux, hresp, hne, hlen]
  norm_num [respOk, hne, hlen]

/-- One pagination step on an empty page: stop with nothing accumulated. -/
theorem paginateAux_step_empty {α β : Type} (pages : Nat → HttpResponse α)
    (extract : α → Option β) (mapErr : Nat → GhError) (fuel page : Nat)
    (hresp : pages page = ⟨200, some []⟩) :
    paginateAux pages extract mapErr (fuel + 1) page = .ok [] := by
  simp only [paginateAux, hresp]
  norm_num [respOk]

/-- Claim C6, confirmed: pagination stops exactly at a short page, an empty
page, or the page ceiling, and the accumulated items are the concatenation of
the fetched pages' extracted items in page order.  First conjunct: pages of
raw sizes [100, 100, 57] under ceiling 10 — the result is the concatenation
of exactly those three pages, for EVERY behaviour of pages 4..10 (so no
fourth request is ever consulted).  Second conjunct: an empty second page
stops accumulation after page 1.  Third conjunct: with ceiling 2 and full
pages, the result uses exactly pages 1 and 2 whatever page 3 would return. -/
theorem claim6_pagination_termination :
    (∀ (α β : Type) (pages : Nat → HttpResponse α) (extract : α → Option β)
       (mapErr : Nat → GhError) (p1 p2 p3 : List α),
      pages 1 = ⟨200, some p1⟩ → p1.length = 100 →
      pages 2 = ⟨200, some p2⟩ → p2.length = 100 →
      pages 3 = ⟨200, some p3⟩ → p3.length = 57 →
      paginate pages extract mapErr 10 =
        .ok (p1.filterMap extract ++ p2.filterMap extract ++ p3.filterMap extract)) ∧
    (∀ (α β : Type) (pages : Nat → HttpResponse α) (extract : α → Option β)
       (mapErr : Nat → GhError) (p1 : List α),
      pages 1 = ⟨200, some p1⟩ → p1.length = 100 →
      pages 2 = ⟨200, some []⟩ →
      paginate pages extract mapErr 10 = .ok (p1.filterMap extract)) ∧
    (∀ (α β : Type) (pages : Nat → HttpResponse α) (extract : α → Option β)
       (mapErr : Nat → GhError) (p1 p2 : List α),
      pages 1 = ⟨200, some p1⟩ → p1.length = 100 →
      pages 2 = ⟨200, some p2⟩ → p2.length = 100 →
      paginate pages extract mapErr 2 =
        .ok (p1.filterMap extract ++ p2.filterMap extract)) := by
  refine ⟨?_, ?_, ?_⟩
  · intro α β pages extract mapErr p1 p2 p3 h1 h1l h2 h2l h3 h3l
    show paginateAux pages extract mapErr 10 1 = _
    rw [show (10 : Nat) = 9 + 1 from rfl,
      paginateAux_step_full pages extract mapErr 9 1 p1 h1 h1l,
      show (9 : Nat) = 8 + 1 from rfl,
      paginateAux_step_full pages extract mapErr 8 2 p2 h2 h2l,
      show (8 : Nat) = 7 + 1 from rfl,
      paginateAux_step_short pages extract mapErr 7 3 p3 h3 (by omega) (by omega)]
    simp [List.append_assoc]
  · intro α β pages extract mapErr p1 h1 h1l h2
    show paginateAux pages extract mapErr 10 1 = _
    rw [show (10 : Nat) = 9 + 1 from rfl,
      paginateAux_step_full pages extract mapErr 9 1 p1 h1 h1l,
      show (9 : Nat) = 8 + 1 from rfl,
      paginateAux_step_empty pages extract mapErr 8 2 h2]
    simp
  · intro α β pages extract mapErr p1 p2 h1 h1l h2 h2l
    show paginateAux pages extract mapErr 2 1 = _
    rw [show (2 : Nat) = 1 + 1 from rfl,
      paginateAux_step_full pages extract mapErr 1 1 p1 h1 h1l,
      show (1 : Nat) = 0 + 1 from rfl,
      paginateAux_step_full pages extract mapErr 0 2 p2 h2 h2l]
    simp [paginateAux]

/-- Claim C6 witness: the [100, 100, 57] page layout evaluated concretely —
three pages are consumed, later pages (here a server error) are never
requested. -/
theorem claim6_pagination_termination_witness :
    paginate
        (fun n => if n = 1 then ⟨200, some (List.replicate 100 0)⟩
          else if n = 2 then ⟨200, some (List.replicate 100 0)⟩
          else if n = 3 then ⟨200, some (List.replicate 57 0)⟩
          else ⟨500, none⟩)
        (fun x => some x) starIssueMapErr 10 =
      .ok ((List.replicate 100 0).filterMap (fun x => some x) ++
        (List.replicate 100 0).filterMap (fun x => some x) ++
        (List.replicate 57 0).filterMap (fun x => some x)) :=
  claim6_pagination_termination.1 Nat Nat
    (fun n => if n = 1 then ⟨200, some (List.replicate 100 0)⟩
      else if n = 2 then ⟨200, some (List.replicate 100 0)⟩
      else if n = 3 then ⟨200, some (List.replicate 57 0)⟩
      else ⟨500, none⟩)
    (fun x => some x) starIssueMapErr
    (List.replicate 100 0) (List.replicate 100 0) (List.replicate 57 0)
    rfl (by simp) rfl (by simp) rfl (by simp)

/-! ## Claim C8 — commit-activity status mapping -/

/-- Claim C8, counterexample: `response.ok` is true for HTTP 202 (ok means
status in [200, 300)), so the explicit `status === 202` branch sits in dead
code and a 202 response whose body parses to a non-empty array is treated as
success — the operation does NOT reject.  (In the deployed endpoint a 202
always carries a non-array body, so the rejection then happens via the body
check instead; the claim as universally stated is still false.) -/
theorem claim8_counterexample :
    fetchCommitActivity ⟨202, some [⟨0, 0, []⟩]⟩ = .ok [⟨0, 0, []⟩] ∧
    (Except.ok [(⟨0, 0, []⟩ : CommitActivity)] : Except GhError (List CommitActivity))
      ≠ .error .statsComputing := by
  exact ⟨rfl, by simp⟩

/-- Claim C8, amended: a 404 yields the not-found error and a 403 the
rate-limited error; an HTTP 202 response makes the commit-activity operation
reject with the distinct stats-computing error PROVIDED its body is not a
non-empty JSON array — which is what the endpoint sends while stats are
materializing — the rejection coming from the body check, since 202 is an ok
status and the explicit 202 status branch is unreachable. -/
theorem claim8_commit_activity_errors_amended :
    ∀ (r : HttpResponse CommitActivity),
      (r.status = 404 → fetchCommitActivity r = .error .notFound) ∧
      (r.status = 403 → fetchCommitActivity r = .error .rateLimited) ∧
      (r.status = 202 → (r.body = none ∨ r.body = some []) →
        fetchCommitActivity r = .error .statsComputing) := by
  intro r
  refine ⟨?_, ?_, ?_⟩
  · intro h
    simp [fetchCommitActivity, h, respOk]
  · intro h
    simp [fetchCommitActivity, h, respOk]
  · intro h hb
    rcases hb with hb | hb <;> simp [fetchCommitActivity, h, hb, respOk]

/-- Claim C8 witness: the three error mappings at concrete responses (for the
202 case, the empty-object body GitHub actually sends). -/
theorem claim8_commit_activity_errors_amended_witness :
    fetchCommitActivity ⟨404, none⟩ = .error .notFound ∧
    fetchCommitActivity ⟨403, none⟩ = .error .rateLimited ∧
    fetchCommitActivity ⟨202, none⟩ = .error .statsComputing :=
  ⟨(claim8_commit_activity_errors_amended ⟨404, none⟩).1 rfl,
   (claim8_commit_activity_errors_amended ⟨403, none⟩).2.1 rfl,
   (claim8_commit_activity_errors_amended ⟨202, none⟩).2.2 rfl (Or.inl rfl)⟩

/-! ## Claim C9 — failure mid-pagination discards accumulated pages -/

/-- Claim C9, confirmed: if the request for page `k` (any page within the
ceiling, in particular any page after the first) returns a non-ok status
while every earlier page was a full ok page, the whole star-history operation
rejects with the mapped error — the items accumulated from pages 1..k−1 are
discarded, and no series is produced. -/
theorem claim9_failure_discards :
    ∀ (pages : Nat → HttpResponse StarItem) (now maxPages k : Nat),
      1 ≤ k → k ≤ maxPages →
      (∀ j, 1 ≤ j → j < k →
        respOk (pages j).status = true ∧ ∃ l, (pages j).body = some l ∧ l.length = 100) →
      respOk (pages k).status = false →
      fetchStarHistory pages now maxPages = .error (starIssueMapErr (pages k).status) := by
  intro pages now maxPages k h1 h2 hfull hbad
  unfold fetchStarHistory paginate
  rw [paginateAux_error_at pages _ _ k maxPages 1 h1 (by omega) hfull hbad]

/-- Claim C9 witness: a full first page followed by a 500 on page 2 rejects
with the generic failure; the 100 already-fetched star timestamps are not
turned into a series. -/
theorem claim9_failure_discards_witness :
    fetchStarHistory
        (fun n => if n = 1 then ⟨200, some (List.replicate 100 ⟨some 0⟩)⟩ else ⟨500, none⟩)
        0 10 = .error (starIssueMapErr 500) :=
  claim9_failure_discards
    (fun n => if n = 1 then ⟨200, some (List.replicate 100 ⟨some 0⟩)⟩ else ⟨500, none⟩)
    0 10 2 (by omega) (by omega)
    (fun j hj1 hj2 => by
      have hj : j = 1 := by omega
      subst hj
      exact ⟨by decide, List.replicate 100 ⟨some 0⟩, rfl, by simp⟩)
    (by decide)

/-! ## Claim C10 — success with non-array or empty body -/

/-- Claim C10, counterexample: the contributors operation CAN return an empty
series on success — a 200 response whose body is a non-empty array containing
one contributor with an empty `weeks` list passes the array check and reduces
to the empty series. -/
theorem claim10_counterexample :
    fetchContributorsOverTime ⟨200, some [⟨"a", []⟩]⟩ = .ok [] := rfl

/-- Claim C10, amended: a successful (2xx) response whose body is not an
array or is an empty array makes both the commit-activity and the
contributors operation reject with the stats-computing error rather than
return an empty series; the commit-activity operation never returns an empty
series on success; but the contributors operation can — its result is empty
exactly when every contributor record in the (non-empty) body has an empty
weeks list, as the counterexample shows. -/
theorem claim10_success_body_amended :
    (∀ r : HttpResponse CommitActivity, respOk r.status = true →
      (r.body = none ∨ r.body = some []) →
      fetchCommitActivity r = .error .statsComputing) ∧
    (∀ r : HttpResponse ContributorRecord, respOk r.status = true →
      (r.body = none ∨ r.body = some []) →
      fetchContributorsOverTime r = .error .statsComputing) ∧
    (∀ (r : HttpResponse CommitActivity) (l : List CommitActivity),
      fetchCommitActivity r = .ok l → l ≠ []) ∧
    (∀ data : List ContributorRecord,
      contributorsSeries data = [] ↔ ∀ cb ∈ data, cb.weeks = []) := by
  refine ⟨?_, ?_, ?_, contributorsSeries_eq_nil_iff⟩
  · intro r hok hb
    rcases hb with hb | hb <;> simp [fetchCommitActivity, hok, hb]
  · intro r hok hb
    rcases hb with hb | hb <;> simp [fetchContributorsOverTime, hok, hb]
  · intro r l h hnil
    subst hnil
    rcases r with ⟨status, body⟩
    by_cases hok : respOk status = true
    · cases body with
      | none => simp [fetchCommitActivity, hok] at h
      | some data =>
        by_cases hlen : data.length = 0
        · simp [fetchCommitActivity, hok, hlen] at h
        · simp [fetchCommitActivity, hok, hlen] at h
          rw [h] at hlen
          simp at hlen
    · simp only [fetchCommitActivity, hok, if_false] at h
      split_ifs at h <;> simp_all

/-- Claim C10 witness: the stats-computing rejection on a 200 response with a
non-array body, for both operations. -/
theorem claim10_success_body_amended_witness :
    fetchCommitActivity ⟨200, none⟩ = .error .statsComputing ∧
    fetchContributorsOverTime ⟨200, none⟩ = .error .statsComputing :=
  ⟨claim10_success_body_amended.1 ⟨200, none⟩ (by decide) (Or.inl rfl),
   claim10_success_body_amended.2.1 ⟨200, none⟩ (by decide) (Or.inl rfl)⟩

end GitSignal
